import Mathlib

/-!
Formal model of the signature-injection-engine backend.

The development shallowly embeds the two source modules of the repository:

* `routes/signPdf.js` — coordinate validation, aspect-ratio image fitting,
  the field-rendering dispatch, and the `/sign-pdf` pipeline;
* `models/Audit.js` — the audit schema, its validation constraints and the
  pre-save metadata derivation.

JavaScript numbers are modelled as rationals (`ℚ`); dynamically typed
request values are modelled by `JSValue`.  External collaborators
(pdf-lib, the filesystem, the hash utility `utils/hash.js` which is not
part of the modelled sources, clocks, and the HTTP layer) are modelled by
an explicit environment record `Env`, and the pipeline's observable side
effects are returned as an explicit list.
-/

namespace SigEngine

/-- A JavaScript runtime value, as far as the modelled code inspects one:
the primitives plus objects as association lists of properties. -/
inductive JSValue : Type where
  | undefined : JSValue
  | null : JSValue
  | boolean (b : Bool) : JSValue
  | number (q : ℚ) : JSValue
  | string (s : String) : JSValue
  | object (props : List (String × JSValue)) : JSValue

/-- JavaScript truthiness (`undefined`, `null`, `false`, `0` and `""` are
falsy; every object is truthy). -/
def JSValue.truthy : JSValue → Bool
  | .undefined => false
  | .null => false
  | .boolean b => b
  | .number q => !(q == 0)
  | .string s => !(s == "")
  | .object _ => true

/-- JavaScript `typeof` (note `typeof null === "object"`). -/
def JSValue.typeof : JSValue → String
  | .undefined => "undefined"
  | .null => "object"
  | .boolean _ => "boolean"
  | .number _ => "number"
  | .string _ => "string"
  | .object _ => "object"

/-- Property access `v[k]`: `undefined` on non-objects and missing keys. -/
def getProp : JSValue → String → JSValue
  | .object props, k => ((props.lookup k).getD .undefined)
  | _, _ => .undefined

/-- `typeof v === 'number' && v >= bound`, the building block of
`validateCoordinates` (signPdf.js lines 30-34). -/
def isNumGe (v : JSValue) (bound : ℚ) : Bool :=
  match v with
  | .number q => decide (bound ≤ q)
  | _ => false

/-- `typeof v === 'number' && v > bound`. -/
def isNumGt (v : JSValue) (bound : ℚ) : Bool :=
  match v with
  | .number q => decide (bound < q)
  | _ => false

/-- `validateCoordinates` (signPdf.js lines 26-36): non-objects and falsy
values are rejected, then the five destructured properties must be numeric
with `x ≥ 0`, `y ≥ 0`, `width > 0`, `height > 0`, `page ≥ 1`. -/
def validateCoordinates (coordinates : JSValue) : Bool :=
  if !coordinates.truthy || coordinates.typeof != "object" then false
  else
    isNumGe (getProp coordinates "x") 0 &&
    isNumGe (getProp coordinates "y") 0 &&
    isNumGt (getProp coordinates "width") 0 &&
    isNumGt (getProp coordinates "height") 0 &&
    isNumGe (getProp coordinates "page") 1

/-- A fully numeric coordinate record, as destructured on signPdf.js
line 96. -/
structure Coordinates : Type where
  x : ℚ
  y : ℚ
  width : ℚ
  height : ℚ
  page : ℚ

/-- The destructuring `const { x, y, width, height, page } = pdfCoordinates`
on a value whose five properties are all numbers; `none` when any property
is missing or non-numeric (after `validateCoordinates` this never happens). -/
def getCoords (v : JSValue) : Option Coordinates :=
  match getProp v "x", getProp v "y", getProp v "width",
        getProp v "height", getProp v "page" with
  | .number x, .number y, .number w, .number h, .number p =>
      some { x := x, y := y, width := w, height := h, page := p }
  | _, _, _, _, _ => none

/-- An image successfully embedded by pdf-lib (`embedPng` / `embedJpg`):
the model only needs its intrinsic size. -/
structure EmbeddedImage : Type where
  width : ℚ
  height : ℚ

/-- The result record of `calculateImageDimensions`. -/
structure FittedDims : Type where
  width : ℚ
  height : ℚ
  xOffset : ℚ
  yOffset : ℚ

/-- `calculateImageDimensions` (signPdf.js lines 39-57): clamp to the box
on the dimension where the image is relatively larger, scale the other by
the image aspect ratio, then center. -/
def calculateImageDimensions (image : EmbeddedImage)
    (maxWidth maxHeight : ℚ) : FittedDims :=
  let imageAspectRatio := image.width / image.height
  let boxAspectRatio := maxWidth / maxHeight
  let wh : ℚ × ℚ :=
    if boxAspectRatio < imageAspectRatio then
      (maxWidth, maxWidth / imageAspectRatio)
    else
      (maxHeight * imageAspectRatio, maxHeight)
  { width := wh.1, height := wh.2,
    xOffset := (maxWidth - wh.1) / 2, yOffset := (maxHeight - wh.2) / 2 }

/-- An RGB colour, mirroring pdf-lib `rgb(r, g, b)`. -/
def Color : Type := ℚ × ℚ × ℚ

/-- pdf-lib `rgb`. -/
def rgb (r g b : ℚ) : Color := (r, g, b)

/-- One primitive drawing operation emitted onto a page, mirroring the
pdf-lib calls `drawImage`, `drawRectangle`, `drawText`, `drawCircle` with
the arguments the source passes. -/
inductive DrawOp : Type where
  | drawImage (img : EmbeddedImage) (x y width height opacity : ℚ) : DrawOp
  | drawRectangle (x y width height : ℚ) (borderColor : Color)
      (borderWidth : ℚ) (color : Color) : DrawOp
  | drawText (s : String) (x y size : ℚ) (color : Color) : DrawOp
  | drawCircle (x y size : ℚ) (borderColor : Color)
      (borderWidth : ℚ) (color : Color) : DrawOp

/-- `signatureImage.replace(/^data:image\/(png|jpeg);base64,/, '')`
(signPdf.js line 104): strip exactly one of the two recognised data-URI
prefixes. -/
def stripDataUri (s : String) : String :=
  if s.startsWith "data:image/png;base64," then
    s.drop ("data:image/png;base64,".length)
  else if s.startsWith "data:image/jpeg;base64," then
    s.drop ("data:image/jpeg;base64,".length)
  else s

/-- The external world of one `/sign-pdf` invocation: filesystem state,
the loaded pdf-lib document, image embedding outcomes, the hash utility
(`utils/hash.js`, outside the modelled sources), and clock values. -/
structure Env : Type where
  /-- `fs.pathExists(originalPdfPath)` for the fixed sample document. -/
  sourceExists : Bool
  /-- the bytes `fs.readFile` returns for the source document. -/
  sourceBytes : List Nat
  /-- `pdfDoc.getPages().length` of the loaded source document. -/
  pageCount : Nat
  /-- outcome of `pdfDoc.embedPng` on the given base64 payload; `none`
  models a decode/embed exception. -/
  embedPng : String → Option EmbeddedImage
  /-- outcome of `pdfDoc.embedJpg` on the given base64 payload. -/
  embedJpg : String → Option EmbeddedImage
  /-- `calculateSHA256` from `utils/hash.js` (external to the modelled
  sources). -/
  hash : List Nat → String
  /-- the bytes produced by `pdfDoc.save()`. -/
  savedBytes : List Nat
  /-- `Date.now()`. -/
  timestamp : Nat
  /-- `new Date().toLocaleDateString()`. -/
  currentDate : String
  /-- `req.ip`. -/
  ip : String
  /-- `req.get('User-Agent')`. -/
  userAgent : String

/-- Truthiness of an optional string request property (absent, or present
with `""` falsy). -/
def optTruthy : Option String → Bool
  | none => false
  | some s => !(s == "")

/-- The embed step of the signature case (signPdf.js lines 105-108):
choose PNG or JPEG embedding by the data-URI media type of the payload. -/
def embedSignature (env : Env) (sig : String) : Option EmbeddedImage :=
  if sig.startsWith "data:image/png" then env.embedPng (stripDataUri sig)
  else env.embedJpg (stripDataUri sig)

/-- The drawing operations one field emits, by the `switch (type)` dispatch
of signPdf.js lines 100-159.  A type matching no case emits nothing (the
switch has no default).  The signature placeholder branch models the inner
`catch` around decoding/embedding (lines 122-131). -/
def fieldOps (env : Env) (signatureImage : Option String) (type : String)
    (value : Option String) (c : Coordinates) : List DrawOp :=
  match type with
  | "signature" =>
    match signatureImage with
    | some sig =>
      if sig == "" then []
      else
        match embedSignature env sig with
        | some image =>
          let d := calculateImageDimensions image c.width c.height
          [DrawOp.drawImage image (c.x + d.xOffset) (c.y + d.yOffset)
             d.width d.height (9/10)]
        | none =>
          [DrawOp.drawRectangle c.x c.y c.width c.height (rgb 1 0 0) 1
             (rgb 1 (9/10) (9/10)),
           DrawOp.drawText "SIGNATURE" (c.x + 5) (c.y + c.height/2 - 6) 10
             (rgb 1 0 0)]
    | none => []
  | "text" =>
    match value with
    | some v =>
      if v == "" then []
      else
        [DrawOp.drawRectangle c.x c.y c.width c.height (rgb 0 0 0) (1/2)
           (rgb 1 1 1),
         DrawOp.drawText v (c.x + 5) (c.y + c.height/2 - 6) 12 (rgb 0 0 0)]
    | none => []
  | "date" =>
    [DrawOp.drawRectangle c.x c.y c.width c.height (rgb (1/5) (2/5) (4/5)) 1
       (rgb (19/20) (19/20) 1),
     DrawOp.drawText env.currentDate (c.x + 5) (c.y + c.height/2 - 6) 10
       (rgb (1/5) (2/5) (4/5))]
  | "radio" =>
    [DrawOp.drawCircle (c.x + c.width/2) (c.y + c.height/2)
       (min c.width c.height / 2 - 2) (rgb 0 0 0) 1 (rgb 1 1 1)]
  | "image" =>
    [DrawOp.drawRectangle c.x c.y c.width c.height (rgb (4/5) (1/5) (4/5)) 1
       (rgb 1 (19/20) 1),
     DrawOp.drawText "[IMAGE]" (c.x + c.width/2 - 20) (c.y + c.height/2 - 6)
       10 (rgb (4/5) (1/5) (4/5))]
  | _ => []

/-- `Math.min(page - 1, pages.length - 1)` (signPdf.js line 97), over
JavaScript numbers. -/
def pageIndex (page : ℚ) (numPages : Nat) : ℚ :=
  min (page - 1) ((numPages : ℚ) - 1)

/-- JavaScript array indexing `pages[q]` on an array of length `len`:
an element exists exactly when `q` is an integer in range; a fractional or
out-of-range index yields `undefined` (`none`). -/
def validIndex (len : Nat) (q : ℚ) : Option Nat :=
  if q.den = 1 ∧ 0 ≤ q.num ∧ q.num < (len : Int) then some q.num.toNat
  else none

/-- One field of the request body, as the loop destructures it
(signPdf.js line 93). -/
structure RequestField : Type where
  type : String
  pdfCoordinates : JSValue
  value : Option String

/-- One iteration of the rendering loop (signPdf.js lines 92-160) for a
single field: skip falsy coordinates (line 94), resolve the target page,
emit the dispatch's operations tagged with the resolved page index.
Drawing on an `undefined` page (fractional or out-of-range index) throws a
TypeError, modelled as `.error`; a field that emits no operation never
touches the page and so never throws.  After `validateCoordinates` the
non-numeric branch is unreachable. -/
def renderField (env : Env) (sig : Option String) (f : RequestField) :
    Except String (List (Nat × DrawOp)) :=
  if !f.pdfCoordinates.truthy then .ok []
  else
    match getCoords f.pdfCoordinates with
    | none => .error "TypeError: non-numeric coordinates"
    | some c =>
      let ops := fieldOps env sig f.type f.value c
      match validIndex env.pageCount (pageIndex c.page env.pageCount) with
      | some i => .ok (ops.map fun op => (i, op))
      | none =>
        if ops.isEmpty then .ok []
        else .error "TypeError: cannot draw on undefined page"

/-- The whole rendering loop, in list order; the first thrown error aborts
the loop. -/
def renderFields (env : Env) (sig : Option String) :
    List RequestField → Except String (List (Nat × DrawOp))
  | [] => .ok []
  | f :: rest =>
    match renderField env sig f with
    | .error e => .error e
    | .ok ops =>
      match renderFields env sig rest with
      | .error e => .error e
      | .ok more => .ok (ops ++ more)

/-- One persisted audit field, per `fieldSchema` (Audit.js lines 11-19);
`value = none` models the property being set to `undefined`. -/
structure AuditField : Type where
  type : String
  coordinates : JSValue
  value : Option String

/-- The redacting map building the audit `fields` array (signPdf.js lines
181-185): the value is kept only for `text` fields. -/
def buildAuditFields (fields : List RequestField) : List AuditField :=
  fields.map fun f =>
    { type := f.type, coordinates := f.pdfCoordinates,
      value := if f.type == "text" then f.value else none }

/-- The derived `metadata` subdocument (Audit.js lines 45-49). -/
structure AuditMetadata : Type where
  totalFields : Nat
  hasSignature : Bool
  pageCount : ℚ

/-- An audit document (Audit.js lines 21-52, restricted to the fields the
modelled code reads or writes). -/
structure AuditRecord : Type where
  pdfId : String
  originalHash : String
  signedHash : String
  fields : List AuditField
  ipAddress : String
  userAgent : String
  metadata : AuditMetadata

/-- `f.coordinates.page` as the pre-save hook reads it.  For any record
that passed schema validation this property is a number; the 0 fallback is
unreachable for saved records. -/
def AuditField.pageNum (f : AuditField) : ℚ :=
  match getProp f.coordinates "page" with
  | .number q => q
  | _ => 0

/-- The metadata computed by the `pre('save')` middleware (Audit.js lines
55-62): `Math.max(...this.fields.map(f => f.coordinates.page), 1)` is the
fold of `max` over the pages with the extra argument 1. -/
def deriveMetadata (fields : List AuditField) : AuditMetadata :=
  { totalFields := fields.length,
    hasSignature := fields.any fun f => f.type == "signature",
    pageCount := (fields.map AuditField.pageNum).foldr max 1 }

/-- The `pre('save')` middleware: overwrite `metadata` with the derived
values. -/
def preSave (r : AuditRecord) : AuditRecord :=
  { r with metadata := deriveMetadata r.fields }

/-- The `enum` of `fieldSchema.type` (Audit.js line 15). -/
def enumTypes : List String := ["signature", "text", "date", "radio", "image"]

/-- Mongoose validation of one audit field: the type must be in the enum,
and the required `coordinates` subdocument must cast (numeric properties)
with `page ≥ 1` (`min: 1`, Audit.js line 8). -/
def fieldValid (f : AuditField) : Bool :=
  enumTypes.contains f.type &&
  match getCoords f.coordinates with
  | some c => decide (1 ≤ c.page)
  | none => false

/-- Mongoose validation of the whole audit document: the three required
top-level strings must be non-empty and every field subdocument valid. -/
def auditValid (a : AuditRecord) : Bool :=
  !(a.pdfId == "") && !(a.originalHash == "") && !(a.signedHash == "") &&
  a.fields.all fieldValid

/-- The request body `{ pdfId, fields, signatureImage }` (signPdf.js line
63): `fields = none` models a value failing `Array.isArray`. -/
structure SignRequest : Type where
  pdfId : Option String
  fields : Option (List RequestField)
  signatureImage : Option String

/-- The JSON responses the endpoint can produce. -/
inductive Response : Type where
  | clientError (msg : String) : Response
  | notFound (msg : String) : Response
  | serverError (msg details : String) : Response
  | success (message signedPdfUrl originalHash signedHash downloadUrl :
      String) : Response

/-- The HTTP status of each response shape. -/
def Response.status : Response → Nat
  | .clientError _ => 400
  | .notFound _ => 404
  | .serverError _ _ => 500
  | .success _ _ _ _ _ => 200

/-- The `error` property of a non-success response. -/
def Response.errorMsg : Response → Option String
  | .clientError m => some m
  | .notFound m => some m
  | .serverError m _ => some m
  | .success _ _ _ _ _ => none

/-- An observable side effect of the pipeline, in execution order. -/
inductive Effect : Type where
  | readSource : Effect
  | writeSigned (filename : String) : Effect
  | copyPublic (filename : String) : Effect
  | auditSave (record : AuditRecord) : Effect

/-- `signed_<Date.now()>.pdf` (signPdf.js line 166). -/
def signedName (env : Env) : String :=
  "signed_" ++ toString env.timestamp ++ ".pdf"

/-- The audit document as constructed on signPdf.js lines 177-189, with
the schema defaults for the unset `metadata`. -/
def mkAudit (env : Env) (pdfId originalHash signedHash : String)
    (fields : List RequestField) : AuditRecord :=
  { pdfId := pdfId, originalHash := originalHash, signedHash := signedHash,
    fields := buildAuditFields fields,
    ipAddress := env.ip, userAgent := env.userAgent,
    metadata := { totalFields := 0, hasSignature := false, pageCount := 1 } }

/-- The `/sign-pdf` pipeline (signPdf.js lines 61-205): input checks,
coordinate validation, source lookup, rendering, persistence of the signed
file and its public copy, audit save, response.  Any exception after the
input checks surfaces as a 500 with the effects performed so far;
document load and serialization themselves are modelled as succeeding
(`env.pageCount`, `env.savedBytes`). -/
def signPdf (env : Env) (req : SignRequest) : Response × List Effect :=
  match req.fields, optTruthy req.pdfId with
  | none, _ =>
    (Response.clientError
      "Missing required fields: pdfId and fields array are required", [])
  | some _, false =>
    (Response.clientError
      "Missing required fields: pdfId and fields array are required", [])
  | some fields, true =>
    let invalidFields :=
      fields.filter fun f => !validateCoordinates f.pdfCoordinates
    if 0 < invalidFields.length then
      (Response.clientError
        ("Invalid coordinates for " ++ toString invalidFields.length ++
         " field(s)"), [])
    else if !env.sourceExists then
      (Response.notFound "Sample PDF not found", [])
    else
      let originalHash := env.hash env.sourceBytes
      match renderFields env req.signatureImage fields with
      | .error e =>
        (Response.serverError "Failed to sign PDF" e, [Effect.readSource])
      | .ok _ =>
        let signedHash := env.hash env.savedBytes
        let fname := signedName env
        let audit := mkAudit env ((req.pdfId).getD "") originalHash
          signedHash fields
        if auditValid audit then
          (Response.success "PDF signed successfully" ("/pdfs/" ++ fname)
             originalHash signedHash ("/api/download/" ++ fname),
           [Effect.readSource, Effect.writeSigned fname,
            Effect.copyPublic fname, Effect.auditSave (preSave audit)])
        else
          (Response.serverError "Failed to sign PDF"
             "Audit validation failed",
           [Effect.readSource, Effect.writeSigned fname,
            Effect.copyPublic fname])

/-- A coordinate object all of whose properties are numbers, for stating
round trips between `JSValue` coordinates and `Coordinates`. -/
def coordsToJS (c : Coordinates) : JSValue :=
  .object [("x", .number c.x), ("y", .number c.y),
           ("width", .number c.width), ("height", .number c.height),
           ("page", .number c.page)]

/-! ### Concrete inputs used by witnesses -/

/-- A concrete environment for witnesses: one-page document, failing
image embedder, fixed hash and clock. -/
def envA : Env :=
  { sourceExists := true, sourceBytes := [1], pageCount := 1,
    embedPng := fun _ => none, embedJpg := fun _ => none,
    hash := fun _ => "abc123", savedBytes := [2], timestamp := 0,
    currentDate := "1/1/2026", ip := "::1", userAgent := "jest" }

/-- A concrete environment with a two-page document. -/
def envB : Env := { envA with pageCount := 2 }

/-- A concrete valid text field on page 1. -/
def textField : RequestField :=
  { type := "text", pdfCoordinates := coordsToJS ⟨0, 0, 10, 10, 1⟩,
    value := some "Alice" }

/-- A concrete valid signature field on page 1. -/
def sigField : RequestField :=
  { type := "signature", pdfCoordinates := coordsToJS ⟨1, 1, 5, 5, 1⟩,
    value := none }

/-- A concrete valid field with a type outside the schema enum. -/
def weirdField : RequestField :=
  { type := "footnote", pdfCoordinates := coordsToJS ⟨0, 0, 10, 10, 1⟩,
    value := none }

/-- A concrete well-formed request with a text and a signature field and a
corrupt signature payload. -/
def reqOk : SignRequest :=
  { pdfId := some "doc1", fields := some [textField, sigField],
    signatureImage := some "data:image/png;base64,%%%" }

/-- A concrete request containing a field of an unknown type. -/
def reqWeird : SignRequest :=
  { pdfId := some "doc1", fields := some [textField, weirdField],
    signatureImage := none }

/-- A concrete request whose only field has a negative x coordinate. -/
def badField : RequestField :=
  { type := "text", pdfCoordinates := coordsToJS ⟨-1, 0, 10, 10, 1⟩,
    value := none }

def reqBadCoords : SignRequest :=
  { pdfId := some "doc1", fields := some [badField],
    signatureImage := none }

/-- A concrete audit record whose stored metadata disagrees with the
derived one. -/
def staleAuditField : AuditField :=
  { type := "signature", coordinates := coordsToJS ⟨0, 0, 10, 10, 2⟩,
    value := none }

def auditStale : AuditRecord :=
  { pdfId := "doc1", originalHash := "h1", signedHash := "h2",
    fields := [staleAuditField],
    ipAddress := "::1", userAgent := "jest",
    metadata := { totalFields := 99, hasSignature := false,
                  pageCount := 42 } }

/-! ### Helper lemmas -/

/-- `isNumGe` succeeds exactly on numbers meeting the bound. -/
theorem isNumGe_eq_true (v : JSValue) (bound : ℚ) :
    isNumGe v bound = true ↔ ∃ q, v = JSValue.number q ∧ bound ≤ q := by
  cases v <;> simp [isNumGe]

/-- `isNumGt` succeeds exactly on numbers exceeding the bound. -/
theorem isNumGt_eq_true (v : JSValue) (bound : ℚ) :
    isNumGt v bound = true ↔ ∃ q, v = JSValue.number q ∧ bound < q := by
  cases v <;> simp [isNumGt]

/-- When all five properties destructure to numbers, `getCoords`
assembles them. -/
theorem getCoords_eq_some (v : JSValue) (qx qy qw qh qp : ℚ)
    (hx : getProp v "x" = JSValue.number qx)
    (hy : getProp v "y" = JSValue.number qy)
    (hw : getProp v "width" = JSValue.number qw)
    (hh : getProp v "height" = JSValue.number qh)
    (hp : getProp v "page" = JSValue.number qp) :
    getCoords v = some ⟨qx, qy, qw, qh, qp⟩ := by
  unfold getCoords
  rw [hx, hy, hw, hh, hp]

/-- A validated coordinate value destructures into numeric coordinates
satisfying the bounds. -/
theorem getCoords_of_valid (v : JSValue)
    (h : validateCoordinates v = true) :
    ∃ c, getCoords v = some c ∧ 0 ≤ c.x ∧ 0 ≤ c.y ∧ 0 < c.width ∧
      0 < c.height ∧ 1 ≤ c.page := by
  cases v <;>
    simp [validateCoordinates, JSValue.truthy, JSValue.typeof,
      Bool.and_eq_true] at h
  obtain ⟨⟨⟨⟨h1, h2⟩, h3⟩, h4⟩, h5⟩ := h
  obtain ⟨qx, hx, hqx⟩ := (isNumGe_eq_true _ _).mp h1
  obtain ⟨qy, hy, hqy⟩ := (isNumGe_eq_true _ _).mp h2
  obtain ⟨qw, hw, hqw⟩ := (isNumGt_eq_true _ _).mp h3
  obtain ⟨qh, hh, hqh⟩ := (isNumGt_eq_true _ _).mp h4
  obtain ⟨qp, hp, hqp⟩ := (isNumGe_eq_true _ _).mp h5
  exact ⟨⟨qx, qy, qw, qh, qp⟩,
    getCoords_eq_some _ _ _ _ _ _ hx hy hw hh hp, hqx, hqy, hqw, hqh, hqp⟩

/-- A value that destructures into coordinates is an object, hence truthy. -/
theorem truthy_of_getCoords (v : JSValue) (c : Coordinates)
    (h : getCoords v = some c) : v.truthy = true := by
  cases v <;> simp_all [getCoords, getProp, JSValue.truthy]

/-- `coordsToJS` destructures back to the record it came from. -/
theorem getCoords_coordsToJS (c : Coordinates) :
    getCoords (coordsToJS c) = some c := rfl

/-- Indexing by the clamped page index of an integral page succeeds and
yields `min (p - 1) (n - 1)`. -/
theorem validIndex_pageIndex (p n : Nat) (hp : 1 ≤ p) (hn : 1 ≤ n) :
    validIndex n (pageIndex (p : ℚ) n) = some (min (p - 1) (n - 1)) := by
  have hcast : pageIndex (p : ℚ) n = ((min (p - 1) (n - 1) : Nat) : ℚ) := by
    rw [pageIndex, Nat.cast_min, Nat.cast_sub hp, Nat.cast_sub hn]
    push_cast
    rfl
  rw [hcast]
  have hlt : (min (p - 1) (n - 1) : Nat) < n :=
    lt_of_le_of_lt (min_le_right _ _) (Nat.sub_lt hn one_pos)
  have h1 : ((min (p - 1) (n - 1) : Nat) : ℚ).den = 1 := Rat.den_natCast _
  have h2 : (0 : Int) ≤ ((min (p - 1) (n - 1) : Nat) : ℚ).num := by
    rw [Rat.num_natCast]
    exact Int.natCast_nonneg _
  have h3 : ((min (p - 1) (n - 1) : Nat) : ℚ).num < (n : Int) := by
    rw [Rat.num_natCast]
    exact_mod_cast hlt
  unfold validIndex
  rw [if_pos ⟨h1, h2, h3⟩, Rat.num_natCast, Int.toNat_natCast]

/-- A field whose coordinates destructure with an integral page in range
renders successfully, with all operations on the clamped index. -/
theorem renderField_ok (env : Env) (sig : Option String) (f : RequestField)
    (c : Coordinates) (p : Nat)
    (hc : getCoords f.pdfCoordinates = some c)
    (hpage : c.page = (p : ℚ)) (hp : 1 ≤ p) (hn : 1 ≤ env.pageCount) :
    renderField env sig f =
      Except.ok ((fieldOps env sig f.type f.value c).map
        fun op => (min (p - 1) (env.pageCount - 1), op)) := by
  have htr := truthy_of_getCoords _ _ hc
  rw [renderField, htr, hc]
  simp only [Bool.not_true, hpage,
    validIndex_pageIndex p env.pageCount hp hn]
  rfl

/-- The whole rendering loop succeeds when every field has destructurable
coordinates with an integral page. -/
theorem renderFields_ok (env : Env) (sig : Option String)
    (fs : List RequestField) (hn : 1 ≤ env.pageCount) :
    (∀ g ∈ fs, ∃ c p, getCoords g.pdfCoordinates = some c ∧
      c.page = ((p : Nat) : ℚ) ∧ 1 ≤ p) →
    ∃ ops, renderFields env sig fs = Except.ok ops := by
  induction fs with
  | nil => exact fun _ => ⟨[], rfl⟩
  | cons f rest ih =>
    intro hpg
    obtain ⟨c, p, hc, hpage, hp⟩ := hpg f (List.mem_cons_self f rest)
    obtain ⟨more, hmore⟩ :=
      ih fun g hg => hpg g (List.mem_cons_of_mem f hg)
    refine ⟨(fieldOps env sig f.type f.value c).map
      (fun op => (min (p - 1) (env.pageCount - 1), op)) ++ more, ?_⟩
    rw [renderFields, renderField_ok env sig f c p hc hpage hp hn, hmore]

/-- A request field with validated coordinates and an in-enum type maps to
a schema-valid audit field. -/
theorem fieldValid_of (g : RequestField)
    (hv : validateCoordinates g.pdfCoordinates = true)
    (ht : enumTypes.contains g.type = true) :
    fieldValid { type := g.type, coordinates := g.pdfCoordinates,
                 value := if g.type == "text" then g.value else none } =
      true := by
  obtain ⟨c, hc, _, _, _, _, hpage⟩ := getCoords_of_valid _ hv
  simp [fieldValid, hc, hpage]
  simpa using ht

/-- The constructed audit document passes schema validation when the
request's fields all have validated coordinates and in-enum types. -/
theorem auditValid_mkAudit (env : Env) (s h1 h2 : String)
    (fs : List RequestField)
    (hs : (s == "") = false) (hh1 : (h1 == "") = false)
    (hh2 : (h2 == "") = false)
    (hv : ∀ g ∈ fs, validateCoordinates g.pdfCoordinates = true)
    (htypes : ∀ g ∈ fs, enumTypes.contains g.type = true) :
    auditValid (mkAudit env s h1 h2 fs) = true := by
  simp only [auditValid, mkAudit, hs, hh1, hh2, Bool.not_false,
    Bool.true_and, buildAuditFields, List.all_eq_true]
  intro g hg
  rw [List.mem_map] at hg
  obtain ⟨f0, hf0, rfl⟩ := hg
  exact fieldValid_of f0 (hv f0 hf0) (htypes f0 hf0)

/-- After the input checks pass, the source exists and rendering succeeds,
the pipeline's outcome is decided by the audit document's validity. -/
theorem signPdf_render_stage (env : Env) (req : SignRequest) (s : String)
    (fs : List RequestField) (ops : List (Nat × DrawOp))
    (hid : req.pdfId = some s) (hs : (s == "") = false)
    (hf : req.fields = some fs)
    (hv : ∀ g ∈ fs, validateCoordinates g.pdfCoordinates = true)
    (hsrc : env.sourceExists = true)
    (hops : renderFields env req.signatureImage fs = Except.ok ops) :
    signPdf env req =
      if auditValid (mkAudit env s (env.hash env.sourceBytes)
          (env.hash env.savedBytes) fs) then
        (Response.success "PDF signed successfully"
           ("/pdfs/" ++ signedName env) (env.hash env.sourceBytes)
           (env.hash env.savedBytes) ("/api/download/" ++ signedName env),
         [Effect.readSource, Effect.writeSigned (signedName env),
          Effect.copyPublic (signedName env),
          Effect.auditSave (preSave (mkAudit env s
            (env.hash env.sourceBytes) (env.hash env.savedBytes) fs))])
      else
        (Response.serverError "Failed to sign PDF"
           "Audit validation failed",
         [Effect.readSource, Effect.writeSigned (signedName env),
          Effect.copyPublic (signedName env)]) := by
  have hopt : optTruthy req.pdfId = true := by simp [hid, optTruthy, hs]
  have hfil :
      fs.filter (fun f => !validateCoordinates f.pdfCoordinates) = [] :=
    List.filter_eq_nil_iff.mpr fun g hg => by simp [hv g hg]
  rw [signPdf, hf, hopt]
  simp only [hfil, List.length_nil, lt_self_iff_false, if_false, hsrc,
    Bool.not_true, hops, hid]
  rfl

/-- A fully well-formed request signs successfully, with the exact effect
trace: read, write, public copy, audit save of the derived record. -/
theorem signPdf_run_ok (env : Env) (req : SignRequest) (s : String)
    (fs : List RequestField)
    (hid : req.pdfId = some s) (hs : (s == "") = false)
    (hf : req.fields = some fs)
    (hv : ∀ g ∈ fs, validateCoordinates g.pdfCoordinates = true)
    (hsrc : env.sourceExists = true)
    (hpg : ∀ g ∈ fs, ∃ c p, getCoords g.pdfCoordinates = some c ∧
      c.page = ((p : Nat) : ℚ) ∧ 1 ≤ p)
    (hn : 1 ≤ env.pageCount)
    (htypes : ∀ g ∈ fs, enumTypes.contains g.type = true)
    (hh1 : (env.hash env.sourceBytes == "") = false)
    (hh2 : (env.hash env.savedBytes == "") = false) :
    signPdf env req =
      (Response.success "PDF signed successfully"
         ("/pdfs/" ++ signedName env) (env.hash env.sourceBytes)
         (env.hash env.savedBytes) ("/api/download/" ++ signedName env),
       [Effect.readSource, Effect.writeSigned (signedName env),
        Effect.copyPublic (signedName env),
        Effect.auditSave (preSave (mkAudit env s
          (env.hash env.sourceBytes) (env.hash env.savedBytes) fs))]) := by
  obtain ⟨ops, hops⟩ := renderFields_ok env req.signatureImage fs hn hpg
  rw [signPdf_render_stage env req s fs ops hid hs hf hv hsrc hops,
    if_pos (auditValid_mkAudit env s _ _ fs hs hh1 hh2 hv htypes)]

/-- The fold computing `Math.max(...pages, 1)` yields the list's maximum
when the list is non-empty with all entries at least 1. -/
theorem foldr_max_spec (l : List ℚ) :
    (∀ x ∈ l, 1 ≤ x) → l ≠ [] →
    l.foldr max 1 ∈ l ∧ ∀ x ∈ l, x ≤ l.foldr max 1 := by
  induction l with
  | nil => exact fun _ h => absurd rfl h
  | cons a t ih =>
    intro h1 _
    cases t with
    | nil =>
      have ha : max a 1 = a := max_eq_left (h1 a (List.mem_singleton.mpr rfl))
      constructor
      · rw [List.foldr_cons, List.foldr_nil, ha]
        exact List.mem_singleton.mpr rfl
      · intro x hx
        rw [List.mem_singleton] at hx
        subst hx
        rw [List.foldr_cons, List.foldr_nil, ha]
    | cons b t2 =>
      have h12 : ∀ x ∈ b :: t2, 1 ≤ x :=
        fun x hx => h1 x (List.mem_cons_of_mem a hx)
      obtain ⟨hmem, hub⟩ := ih h12 (List.cons_ne_nil b t2)
      constructor
      · rcases le_total a ((b :: t2).foldr max 1) with hle | hle
        · rw [List.foldr_cons, max_eq_right hle]
          exact List.mem_cons_of_mem a hmem
        · rw [List.foldr_cons, max_eq_left hle]
          exact List.mem_cons_self a _
      · intro x hx
        rcases List.mem_cons.mp hx with rfl | hx2
        · exact le_max_left _ _
        · exact le_trans (hub x hx2) (le_max_right _ _)

/-- A numeric coordinate object within the bounds passes validation. -/
theorem validate_coordsToJS (c : Coordinates) (h1 : 0 ≤ c.x)
    (h2 : 0 ≤ c.y) (h3 : 0 < c.width) (h4 : 0 < c.height)
    (h5 : 1 ≤ c.page) : validateCoordinates (coordsToJS c) = true := by
  simp [validateCoordinates, coordsToJS, JSValue.truthy, JSValue.typeof,
    getProp, isNumGe, isNumGt, List.lookup, h1, h2, h3, h4, h5]

/-! ### Claim theorems -/

/-- C1: `validateCoordinates` returns `true` exactly when its input is an
object whose five properties `x`, `y`, `width`, `height`, `page` are all
present with numeric values satisfying `x ≥ 0`, `y ≥ 0`, `width > 0`,
`height > 0`, `page ≥ 1`; it returns `false` on every other input. -/
theorem C1_validateCoordinates_iff (c : JSValue) :
    validateCoordinates c = true ↔
    ∃ props, c = JSValue.object props ∧
      (∃ qx, getProp c "x" = JSValue.number qx ∧ 0 ≤ qx) ∧
      (∃ qy, getProp c "y" = JSValue.number qy ∧ 0 ≤ qy) ∧
      (∃ qw, getProp c "width" = JSValue.number qw ∧ 0 < qw) ∧
      (∃ qh, getProp c "height" = JSValue.number qh ∧ 0 < qh) ∧
      (∃ qp, getProp c "page" = JSValue.number qp ∧ 1 ≤ qp) := by
  constructor
  · intro h
    cases c <;>
      simp [validateCoordinates, JSValue.truthy, JSValue.typeof,
        Bool.and_eq_true] at h
    rename_i props
    obtain ⟨⟨⟨⟨h1, h2⟩, h3⟩, h4⟩, h5⟩ := h
    exact ⟨props, rfl, (isNumGe_eq_true _ _).mp h1,
      (isNumGe_eq_true _ _).mp h2, (isNumGt_eq_true _ _).mp h3,
      (isNumGt_eq_true _ _).mp h4, (isNumGe_eq_true _ _).mp h5⟩
  · rintro ⟨props, rfl, hx, hy, hw, hh, hp⟩
    simp only [validateCoordinates, JSValue.truthy, JSValue.typeof]
    simp [Bool.and_eq_true, isNumGe_eq_true, isNumGt_eq_true]
    exact ⟨⟨⟨⟨hx, hy⟩, hw⟩, hh⟩, hp⟩

/-- C4: for positive image sizes and positive box sizes,
`calculateImageDimensions` fits the image in the box, preserves the aspect
ratio exactly (over exact rational arithmetic), and centers it with
`xOffset = (maxW - width)/2`, `yOffset = (maxH - height)/2`. -/
theorem C4_calculateImageDimensions_fit (image : EmbeddedImage)
    (maxW maxH : ℚ) (hiw : 0 < image.width) (hih : 0 < image.height)
    (hmw : 0 < maxW) (hmh : 0 < maxH) :
    (calculateImageDimensions image maxW maxH).width ≤ maxW ∧
    (calculateImageDimensions image maxW maxH).height ≤ maxH ∧
    (calculateImageDimensions image maxW maxH).width /
        (calculateImageDimensions image maxW maxH).height =
      image.width / image.height ∧
    (calculateImageDimensions image maxW maxH).xOffset =
      (maxW - (calculateImageDimensions image maxW maxH).width) / 2 ∧
    (calculateImageDimensions image maxW maxH).yOffset =
      (maxH - (calculateImageDimensions image maxW maxH).height) / 2 := by
  have hA : 0 < image.width / image.height := div_pos hiw hih
  simp only [calculateImageDimensions]
  split_ifs with hcase
  · refine ⟨le_refl _, ?_, ?_, by simp, by simp⟩
    · have h1 : maxW < image.width / image.height * maxH :=
        (div_lt_iff₀ hmh).mp hcase
      rw [div_le_iff₀ hA]
      nlinarith
    · rw [div_div_eq_mul_div, mul_comm, mul_div_assoc,
        div_self (ne_of_gt hmw), mul_one]
  · refine ⟨?_, le_refl _, ?_, by simp, by simp⟩
    · have h1 : image.width / image.height * maxH ≤ maxW :=
        (le_div_iff₀ hmh).mp (not_lt.mp hcase)
      nlinarith
    · exact mul_div_cancel_left₀ _ (ne_of_gt hmh)

/-- Witness for C4 at a wide 4×2 image in a 2×2 box. -/
theorem C4_calculateImageDimensions_fit_witness :
    (calculateImageDimensions ⟨4, 2⟩ 2 2).width ≤ 2 ∧
    (calculateImageDimensions ⟨4, 2⟩ 2 2).height ≤ 2 ∧
    (calculateImageDimensions ⟨4, 2⟩ 2 2).width /
        (calculateImageDimensions ⟨4, 2⟩ 2 2).height = (4 : ℚ) / 2 ∧
    (calculateImageDimensions ⟨4, 2⟩ 2 2).xOffset =
      (2 - (calculateImageDimensions ⟨4, 2⟩ 2 2).width) / 2 ∧
    (calculateImageDimensions ⟨4, 2⟩ 2 2).yOffset =
      (2 - (calculateImageDimensions ⟨4, 2⟩ 2 2).height) / 2 :=
  C4_calculateImageDimensions_fit ⟨4, 2⟩ 2 2 (by norm_num) (by norm_num)
    (by norm_num) (by norm_num)

/-- C5: a field with integral requested page `p ≥ 1` on a document of
`n ≥ 1` pages renders without error, every operation it emits lands on
page index `min (p-1) (n-1)`, and when `p` exceeds `n` that index is the
last page `n-1`. -/
theorem C5_page_clamp (env : Env) (sig : Option String) (f : RequestField)
    (c : Coordinates) (p n : Nat)
    (hc : getCoords f.pdfCoordinates = some c)
    (hpage : c.page = (p : ℚ))
    (hp : 1 ≤ p) (hn : 1 ≤ n) (henv : env.pageCount = n) :
    (∃ placed, renderField env sig f = Except.ok placed ∧
        ∀ pr ∈ placed, pr.1 = min (p - 1) (n - 1)) ∧
    (n < p → min (p - 1) (n - 1) = n - 1) := by
  constructor
  · have htr : f.pdfCoordinates.truthy = true := truthy_of_getCoords _ _ hc
    rw [renderField, htr, hc]
    simp only [Bool.not_true, henv, hpage,
      validIndex_pageIndex p n hp hn]
    refine ⟨_, rfl, ?_⟩
    intro pr hpr
    simp only [List.mem_map] at hpr
    obtain ⟨op, _, rfl⟩ := hpr
    rfl
  · intro hlt
    exact min_eq_right (Nat.sub_le_sub_right (le_of_lt hlt) 1)

/-- Witness for C5: a date field requesting page 5 of a 2-page document
renders on page index 1, the last page. -/
theorem C5_page_clamp_witness :
    (∃ placed, renderField envB none
        ⟨"date", coordsToJS ⟨0, 0, 10, 10, 5⟩, none⟩ = Except.ok placed ∧
        ∀ pr ∈ placed, pr.1 = min (5 - 1) (2 - 1)) ∧
    min (5 - 1) (2 - 1) = 2 - 1 :=
  ⟨(C5_page_clamp envB none ⟨"date", coordsToJS ⟨0, 0, 10, 10, 5⟩, none⟩
      ⟨0, 0, 10, 10, 5⟩ 5 2 (getCoords_coordsToJS _) (by norm_num)
      (by norm_num) (by norm_num) rfl).1,
   (C5_page_clamp envB none ⟨"date", coordsToJS ⟨0, 0, 10, 10, 5⟩, none⟩
      ⟨0, 0, 10, 10, 5⟩ 5 2 (getCoords_coordsToJS _) (by norm_num)
      (by norm_num) (by norm_num) rfl).2 (by norm_num)⟩

/-- C10: the coordinate object with the fractional page 3/2 (and otherwise
valid bounds) passes `validateCoordinates`, yet on a 2-page document the
clamped index `min(page-1, 1)` is the fractional 1/2, array lookup at it
yields no page, and rendering a date field with those coordinates throws
instead of drawing. -/
theorem C10_fractional_page_accepted :
    validateCoordinates (coordsToJS ⟨0, 0, 10, 10, 3/2⟩) = true ∧
    pageIndex (3/2) 2 = 1/2 ∧
    validIndex 2 (pageIndex (3/2) 2) = none ∧
    renderField envB none
        ⟨"date", coordsToJS ⟨0, 0, 10, 10, 3/2⟩, none⟩ =
      Except.error "TypeError: cannot draw on undefined page" := by
  have hpi : pageIndex (3/2) 2 = 1/2 := by
    rw [pageIndex]
    norm_num [min_def]
  have hden : ((1:ℚ)/2).den ≠ 1 := by
    intro h
    have h2 := (Rat.den_eq_one_iff _).mp h
    have h3 : (2 * ((1:ℚ)/2).num : ℚ) = 1 := by
      rw [h2]
      norm_num
    have h4 : (2 * ((1:ℚ)/2).num : Int) = 1 := by exact_mod_cast h3
    omega
  have hvi : validIndex 2 (pageIndex (3/2) 2) = none := by
    rw [hpi, validIndex, if_neg]
    intro hcond
    exact hden hcond.1
  refine ⟨?_, hpi, hvi, ?_⟩
  · simp [validateCoordinates, coordsToJS, JSValue.truthy, JSValue.typeof,
      getProp, isNumGe, isNumGt, List.lookup]
    norm_num
  · rw [renderField]
    have htr : (coordsToJS ⟨0, 0, 10, 10, 3/2⟩).truthy = true := rfl
    rw [htr, getCoords_coordsToJS]
    have henvB : envB.pageCount = 2 := rfl
    simp only [Bool.not_true, henvB, hvi]
    rfl

/-- C3: for any audit record that can complete its save (schema validation
forces every field's page to be a number at least 1), the pre-save hook
derives `totalFields` as the number of fields, `hasSignature` as the
existence of a signature-typed field, and `pageCount` as the maximum page
over the fields, or 1 when there are none — whatever metadata the record
carried before. -/
theorem C3_audit_metadata_derived (r : AuditRecord)
    (hpages : ∀ f ∈ r.fields, ∃ q,
      getProp f.coordinates "page" = JSValue.number q ∧ 1 ≤ q) :
    (preSave r).metadata.totalFields = r.fields.length ∧
    ((preSave r).metadata.hasSignature = true ↔
      ∃ f ∈ r.fields, f.type = "signature") ∧
    (r.fields = [] → (preSave r).metadata.pageCount = 1) ∧
    (r.fields ≠ [] →
      (preSave r).metadata.pageCount ∈ r.fields.map AuditField.pageNum ∧
      ∀ f ∈ r.fields, f.pageNum ≤ (preSave r).metadata.pageCount) ∧
    ∀ m, preSave { r with metadata := m } = preSave r := by
  refine ⟨rfl, ?_, ?_, ?_, fun m => rfl⟩
  · simp [preSave, deriveMetadata, List.any_eq_true]
  · intro h
    simp [preSave, deriveMetadata, h]
  · intro hne
    have hone : ∀ x ∈ r.fields.map AuditField.pageNum, 1 ≤ x := by
      intro x hx
      rw [List.mem_map] at hx
      obtain ⟨f, hf, rfl⟩ := hx
      obtain ⟨q, hq, h1q⟩ := hpages f hf
      unfold AuditField.pageNum
      rw [hq]
      exact h1q
    have hne2 : r.fields.map AuditField.pageNum ≠ [] := by simp [hne]
    obtain ⟨hmem, hub⟩ := foldr_max_spec _ hone hne2
    refine ⟨hmem, ?_⟩
    intro f hf
    exact hub _ (List.mem_map_of_mem _ hf)

/-- Witness for C3: a record with one signature field on page 2 and stale
stored metadata gets totalFields 1, hasSignature true, pageCount from the
field list, independently of the constructed metadata. -/
theorem C3_audit_metadata_derived_witness :
    (preSave auditStale).metadata.totalFields =
      auditStale.fields.length ∧
    (preSave auditStale).metadata.hasSignature = true ∧
    (preSave auditStale).metadata.pageCount ∈
      auditStale.fields.map AuditField.pageNum ∧
    staleAuditField.pageNum ≤ (preSave auditStale).metadata.pageCount ∧
    preSave { auditStale with metadata := ⟨0, false, 1⟩ } =
      preSave auditStale := by
  have h := C3_audit_metadata_derived auditStale (by
    intro f hf
    rw [show auditStale.fields = [staleAuditField] from rfl,
      List.mem_singleton] at hf
    subst hf
    exact ⟨2, rfl, by norm_num⟩)
  have hne : auditStale.fields ≠ [] := List.cons_ne_nil _ _
  have hmem : staleAuditField ∈ auditStale.fields := List.Mem.head _
  exact ⟨h.1, h.2.1.mpr ⟨staleAuditField, hmem, rfl⟩,
    (h.2.2.2.1 hne).1, (h.2.2.2.1 hne).2 staleAuditField hmem,
    h.2.2.2.2 ⟨0, false, 1⟩⟩

/-- C2: a request with a falsy `pdfId`, a non-array `fields`, or any field
failing coordinate validation gets a 400 response and produces no side
effect at all; in the coordinate case the error message reports the number
of invalid fields. -/
theorem C2_client_error_no_side_effects (env : Env) (req : SignRequest)
    (h : optTruthy req.pdfId = false ∨ req.fields = none ∨
      ∃ fs, req.fields = some fs ∧
        (fs.filter fun f => !validateCoordinates f.pdfCoordinates) ≠ []) :
    (signPdf env req).1.status = 400 ∧ (signPdf env req).2 = [] ∧
    ∀ fs, req.fields = some fs → optTruthy req.pdfId = true →
      (fs.filter fun f => !validateCoordinates f.pdfCoordinates) ≠ [] →
      (signPdf env req).1.errorMsg =
        some ("Invalid coordinates for " ++
          toString (fs.filter fun f =>
            !validateCoordinates f.pdfCoordinates).length ++
          " field(s)") := by
  cases hf : req.fields with
  | none =>
    rw [signPdf, hf]
    exact ⟨rfl, rfl, fun fs hfs => by cases hfs⟩
  | some fs =>
    cases hopt : optTruthy req.pdfId with
    | false =>
      rw [signPdf, hf, hopt]
      exact ⟨rfl, rfl, fun fs2 _ htrue => by cases htrue⟩
    | true =>
      have hbad :
          (fs.filter fun f => !validateCoordinates f.pdfCoordinates) ≠
            [] := by
        rcases h with h1 | h2 | ⟨fs2, hfs2, hne⟩
        · rw [hopt] at h1
          cases h1
        · rw [hf] at h2
          cases h2
        · rw [hf] at hfs2
          injection hfs2 with he
          subst he
          exact hne
      have hlen :
          0 < (fs.filter fun f =>
            !validateCoordinates f.pdfCoordinates).length :=
        List.length_pos.mpr hbad
      have hrun : signPdf env req =
          (Response.clientError ("Invalid coordinates for " ++
            toString (fs.filter fun f =>
              !validateCoordinates f.pdfCoordinates).length ++
            " field(s)"), []) := by
        rw [signPdf, hf, hopt]
        simp [hlen]
      rw [hrun]
      refine ⟨rfl, rfl, ?_⟩
      intro fs2 hfs2 _ _
      injection hfs2 with he
      subst he
      rfl

/-- Witness for C2: a request whose only field has `x = -1` is rejected
with a 400, an empty effect list, and the counting message. -/
theorem C2_client_error_no_side_effects_witness :
    (signPdf envA reqBadCoords).1.status = 400 ∧
    (signPdf envA reqBadCoords).2 = [] ∧
    (signPdf envA reqBadCoords).1.errorMsg =
      some ("Invalid coordinates for " ++
        toString ([badField].filter fun f =>
          !validateCoordinates f.pdfCoordinates).length ++
        " field(s)") := by
  have hx : validateCoordinates badField.pdfCoordinates = false := by
    simp [badField, coordsToJS, validateCoordinates, getProp,
      JSValue.truthy, JSValue.typeof, isNumGe, List.lookup]
  have hne : ([badField].filter fun f =>
      !validateCoordinates f.pdfCoordinates) ≠ [] := by
    simp [List.filter, hx]
  have h := C2_client_error_no_side_effects envA reqBadCoords
    (Or.inr (Or.inr ⟨[badField], rfl, hne⟩))
  exact ⟨h.1, h.2.1, h.2.2 [badField] rfl rfl hne⟩

/-- C8: a text field with a non-empty value draws the bordered white
rectangle over its box and the value as vertically centered text; an
absent or empty value draws nothing. -/
theorem C8_text_field_render (env : Env) (sig : Option String)
    (c : Coordinates) :
    (∀ v, v ≠ "" →
      fieldOps env sig "text" (some v) c =
        [DrawOp.drawRectangle c.x c.y c.width c.height (rgb 0 0 0) (1/2)
           (rgb 1 1 1),
         DrawOp.drawText v (c.x + 5) (c.y + c.height/2 - 6) 12
           (rgb 0 0 0)]) ∧
    ∀ v, optTruthy v = false → fieldOps env sig "text" v c = [] := by
  constructor
  · intro v hv
    simp [fieldOps, hv]
  · intro v hv
    cases v with
    | none => rfl
    | some s =>
      simp [optTruthy] at hv
      simp [fieldOps, hv]

/-- Witness for C8: the value "Alice" renders a rectangle plus text; an
absent value renders nothing. -/
theorem C8_text_field_render_witness :
    fieldOps envA none "text" (some "Alice") ⟨0, 0, 10, 10, 1⟩ =
      [DrawOp.drawRectangle 0 0 10 10 (rgb 0 0 0) (1/2) (rgb 1 1 1),
       DrawOp.drawText "Alice" (0 + 5) (0 + 10/2 - 6) 12 (rgb 0 0 0)] ∧
    fieldOps envA none "text" none ⟨0, 0, 10, 10, 1⟩ = [] :=
  ⟨(C8_text_field_render envA none ⟨0, 0, 10, 10, 1⟩).1 "Alice"
     (by decide),
   (C8_text_field_render envA none ⟨0, 0, 10, 10, 1⟩).2 none rfl⟩

/-- C7: whatever request reaches a persisted audit record, that record's
field list is the redacting map of the request's fields: type and
coordinates are copied, the value is kept for text fields and dropped
(set to `undefined`) for every other type. -/
theorem C7_audit_value_redaction (env : Env) (req : SignRequest)
    (a : AuditRecord)
    (h : Effect.auditSave a ∈ (signPdf env req).2) :
    ∃ fs, req.fields = some fs ∧ a.fields = buildAuditFields fs ∧
      ∀ i f, fs.get? i = some f →
        a.fields.get? i = some ⟨f.type, f.pdfCoordinates,
          if f.type = "text" then f.value else none⟩ := by
  obtain ⟨pdfId, fields, sig⟩ := req
  cases fields with
  | none => simp [signPdf] at h
  | some fs =>
    cases hopt : optTruthy pdfId with
    | false => simp [signPdf, hopt] at h
    | true =>
      by_cases hinv : 0 < (fs.filter fun f =>
        !validateCoordinates f.pdfCoordinates).length
      · simp [signPdf, hopt, hinv] at h
      · cases hsrc : env.sourceExists with
        | false => simp [signPdf, hopt, hinv, hsrc] at h
        | true =>
          cases hrend : renderFields env sig fs with
          | error e => simp [signPdf, hopt, hinv, hsrc, hrend] at h
          | ok ops =>
            by_cases hav : auditValid (mkAudit env (pdfId.getD "")
              (env.hash env.sourceBytes) (env.hash env.savedBytes) fs)
            · simp [signPdf, hopt, hinv, hsrc, hrend, hav] at h
              subst h
              refine ⟨fs, rfl, rfl, ?_⟩
              intro i f hif
              have hfe : (preSave (mkAudit env (pdfId.getD "")
                  (env.hash env.sourceBytes) (env.hash env.savedBytes)
                  fs)).fields = buildAuditFields fs := rfl
              rw [hfe, buildAuditFields, List.get?_map, hif]
              by_cases hft : f.type = "text" <;> simp [hft]
            · simp [signPdf, hopt, hinv, hsrc, hrend, hav] at h

/-- Witness for C7: the persisted record of a successful two-field run
keeps "Alice" for the text field and drops the signature field's value. -/
theorem C7_audit_value_redaction_witness :
    (preSave (mkAudit envA "doc1" (envA.hash envA.sourceBytes)
      (envA.hash envA.savedBytes) [textField, sigField])).fields =
      buildAuditFields [textField, sigField] ∧
    (preSave (mkAudit envA "doc1" (envA.hash envA.sourceBytes)
      (envA.hash envA.savedBytes) [textField, sigField])).fields.get? 0 =
      some ⟨"text", textField.pdfCoordinates, some "Alice"⟩ ∧
    (preSave (mkAudit envA "doc1" (envA.hash envA.sourceBytes)
      (envA.hash envA.savedBytes) [textField, sigField])).fields.get? 1 =
      some ⟨"signature", sigField.pdfCoordinates, none⟩ := by
  obtain ⟨fs, hfs, hfields, hget⟩ := C7_audit_value_redaction envA reqOk
    (preSave (mkAudit envA "doc1" (envA.hash envA.sourceBytes)
      (envA.hash envA.savedBytes) [textField, sigField]))
    (by
      rw [signPdf_run_ok envA reqOk "doc1" [textField, sigField] rfl rfl
        rfl
        (by
          intro g hg
          rcases List.mem_cons.mp hg with rfl | hg2
          · exact validate_coordsToJS ⟨0, 0, 10, 10, 1⟩ (by norm_num)
              (by norm_num) (by norm_num) (by norm_num) (by norm_num)
          · rw [List.mem_singleton] at hg2
            subst hg2
            exact validate_coordsToJS ⟨1, 1, 5, 5, 1⟩ (by norm_num)
              (by norm_num) (by norm_num) (by norm_num) (by norm_num))
        rfl
        (by
          intro g hg
          rcases List.mem_cons.mp hg with rfl | hg2
          · exact ⟨⟨0, 0, 10, 10, 1⟩, 1, getCoords_coordsToJS _,
              by norm_num, le_refl 1⟩
          · rw [List.mem_singleton] at hg2
            subst hg2
            exact ⟨⟨1, 1, 5, 5, 1⟩, 1, getCoords_coordsToJS _,
              by norm_num, le_refl 1⟩)
        (by decide)
        (by
          intro g hg
          rcases List.mem_cons.mp hg with rfl | hg2
          · decide
          · rw [List.mem_singleton] at hg2
            subst hg2
            decide)
        rfl rfl]
      exact List.Mem.tail _ (List.Mem.tail _ (List.Mem.tail _
        (List.Mem.head _))))
  have he : fs = [textField, sigField] := by
    rw [show reqOk.fields = some [textField, sigField] from rfl] at hfs
    injection hfs with h2
    exact h2.symm
  subst he
  refine ⟨hfields, ?_, ?_⟩
  · have h0 := hget 0 textField rfl
    simpa using h0
  · have h1 := hget 1 sigField rfl
    simpa using h1

/-- C6: a signature field with a supplied payload whose decoding or
embedding fails degrades to the bordered placeholder rectangle plus the
literal "SIGNATURE" text; with no payload it draws nothing; and a
well-formed request still completes with a 200 success. -/
theorem C6_signature_degrade (env : Env) :
    (∀ s value c, (s == "") = false → embedSignature env s = none →
      fieldOps env (some s) "signature" value c =
        [DrawOp.drawRectangle c.x c.y c.width c.height (rgb 1 0 0) 1
           (rgb 1 (9/10) (9/10)),
         DrawOp.drawText "SIGNATURE" (c.x + 5) (c.y + c.height/2 - 6) 10
           (rgb 1 0 0)]) ∧
    (∀ sig value c, optTruthy sig = false →
      fieldOps env sig "signature" value c = []) ∧
    ∀ req s fs, req.pdfId = some s → (s == "") = false →
      req.fields = some fs →
      (∀ g ∈ fs, validateCoordinates g.pdfCoordinates = true) →
      env.sourceExists = true →
      (∀ g ∈ fs, ∃ c p, getCoords g.pdfCoordinates = some c ∧
        c.page = ((p : Nat) : ℚ) ∧ 1 ≤ p) →
      1 ≤ env.pageCount →
      (∀ g ∈ fs, enumTypes.contains g.type = true) →
      (env.hash env.sourceBytes == "") = false →
      (env.hash env.savedBytes == "") = false →
      (signPdf env req).1.status = 200 := by
  refine ⟨?_, ?_, ?_⟩
  · intro s value c hs hemb
    simp [fieldOps, hs, hemb]
  · intro sig value c hsig
    cases sig with
    | none => rfl
    | some s =>
      simp [optTruthy] at hsig
      simp [fieldOps, hsig]
  · intro req s fs hid hs hf hv hsrc hpg hn htypes hh1 hh2
    rw [signPdf_run_ok env req s fs hid hs hf hv hsrc hpg hn htypes hh1
      hh2]
    rfl

/-- Witness for C6: with the always-failing embedder, a corrupt payload
yields the placeholder ops, an absent payload yields none, and the
two-field request still signs with status 200. -/
theorem C6_signature_degrade_witness :
    fieldOps envA (some "data:image/png;base64,%%%") "signature" none
        ⟨1, 1, 5, 5, 1⟩ =
      [DrawOp.drawRectangle 1 1 5 5 (rgb 1 0 0) 1 (rgb 1 (9/10) (9/10)),
       DrawOp.drawText "SIGNATURE" (1 + 5) (1 + 5/2 - 6) 10 (rgb 1 0 0)] ∧
    fieldOps envA none "signature" none ⟨1, 1, 5, 5, 1⟩ = [] ∧
    (signPdf envA reqOk).1.status = 200 :=
  ⟨(C6_signature_degrade envA).1 "data:image/png;base64,%%%" none
     ⟨1, 1, 5, 5, 1⟩ rfl (by simp [embedSignature, envA]),
   (C6_signature_degrade envA).2.1 none none ⟨1, 1, 5, 5, 1⟩ rfl,
   (C6_signature_degrade envA).2.2 reqOk "doc1" [textField, sigField] rfl
     rfl rfl
     (by
       intro g hg
       rcases List.mem_cons.mp hg with rfl | hg2
       · exact validate_coordsToJS ⟨0, 0, 10, 10, 1⟩ (by norm_num)
           (by norm_num) (by norm_num) (by norm_num) (by norm_num)
       · rw [List.mem_singleton] at hg2
         subst hg2
         exact validate_coordsToJS ⟨1, 1, 5, 5, 1⟩ (by norm_num)
           (by norm_num) (by norm_num) (by norm_num) (by norm_num))
     rfl
     (by
       intro g hg
       rcases List.mem_cons.mp hg with rfl | hg2
       · exact ⟨⟨0, 0, 10, 10, 1⟩, 1, getCoords_coordsToJS _,
           by norm_num, le_refl 1⟩
       · rw [List.mem_singleton] at hg2
         subst hg2
         exact ⟨⟨1, 1, 5, 5, 1⟩, 1, getCoords_coordsToJS _,
           by norm_num, le_refl 1⟩)
     (by decide)
     (by
       intro g hg
       rcases List.mem_cons.mp hg with rfl | hg2
       · decide
       · rw [List.mem_singleton] at hg2
         subst hg2
         decide)
     rfl rfl⟩

/-- A type string matching none of the five dispatch cases emits no
drawing operation. -/
theorem fieldOps_unknown (env : Env) (sig : Option String)
    (value : Option String) (c : Coordinates) (type : String)
    (h : enumTypes.contains type = false) :
    fieldOps env sig type value c = [] := by
  rw [fieldOps.eq_def]
  split <;> simp_all [enumTypes]

/-- C9: a request containing a field whose type is outside the enum is
rendered with that field skipped (no operation emitted), yet the audit
save fails the schema's type enumeration, so after the signed file and
its public copy were already written the request ends in a 500 with no
audit record among the effects. -/
theorem C9_unknown_type_late_failure (env : Env) (req : SignRequest)
    (s : String) (fs : List RequestField) (f : RequestField)
    (hid : req.pdfId = some s) (hs : (s == "") = false)
    (hf : req.fields = some fs)
    (hv : ∀ g ∈ fs, validateCoordinates g.pdfCoordinates = true)
    (hsrc : env.sourceExists = true)
    (hr : ∃ ops, renderFields env req.signatureImage fs = Except.ok ops)
    (hmem : f ∈ fs)
    (ht : enumTypes.contains f.type = false) :
    (∀ sig value c, fieldOps env sig f.type value c = []) ∧
    (signPdf env req).1.status = 500 ∧
    (signPdf env req).2 =
      [Effect.readSource, Effect.writeSigned (signedName env),
       Effect.copyPublic (signedName env)] := by
  obtain ⟨ops, hops⟩ := hr
  have hall : (buildAuditFields fs).all fieldValid = false := by
    rw [List.all_eq_false]
    refine ⟨_, List.mem_map_of_mem _ hmem, ?_⟩
    simp [fieldValid]
    intro hmem2
    exact absurd hmem2 (by simpa using ht)
  have hav : auditValid (mkAudit env s (env.hash env.sourceBytes)
      (env.hash env.savedBytes) fs) = false := by
    simp [auditValid, mkAudit, hall]
  refine ⟨fun sig value c => fieldOps_unknown env sig value c f.type ht,
    ?_, ?_⟩
  · rw [signPdf_render_stage env req s fs ops hid hs hf hv hsrc hops,
      if_neg (by simp [hav])]
    rfl
  · rw [signPdf_render_stage env req s fs ops hid hs hf hv hsrc hops,
      if_neg (by simp [hav])]

/-- Witness for C9: the request with a "footnote" field writes the signed
file and its public copy, emits nothing for the field, and fails with a
500 and no audit-save effect. -/
theorem C9_unknown_type_late_failure_witness :
    fieldOps envA none weirdField.type none ⟨0, 0, 10, 10, 1⟩ = [] ∧
    (signPdf envA reqWeird).1.status = 500 ∧
    (signPdf envA reqWeird).2 =
      [Effect.readSource, Effect.writeSigned (signedName envA),
       Effect.copyPublic (signedName envA)] := by
  have h := C9_unknown_type_late_failure envA reqWeird "doc1"
    [textField, weirdField] weirdField rfl rfl rfl
    (by
      intro g hg
      rcases List.mem_cons.mp hg with rfl | hg2
      · exact validate_coordsToJS ⟨0, 0, 10, 10, 1⟩ (by norm_num)
          (by norm_num) (by norm_num) (by norm_num) (by norm_num)
      · rw [List.mem_singleton] at hg2
        subst hg2
        exact validate_coordsToJS ⟨0, 0, 10, 10, 1⟩ (by norm_num)
          (by norm_num) (by norm_num) (by norm_num) (by norm_num))
    rfl
    (renderFields_ok envA none [textField, weirdField] (by decide)
      (by
        intro g hg
        rcases List.mem_cons.mp hg with rfl | hg2
        · exact ⟨⟨0, 0, 10, 10, 1⟩, 1, getCoords_coordsToJS _,
            by norm_num, le_refl 1⟩
        · rw [List.mem_singleton] at hg2
          subst hg2
          exact ⟨⟨0, 0, 10, 10, 1⟩, 1, getCoords_coordsToJS _,
            by norm_num, le_refl 1⟩))
    (List.Mem.tail _ (List.Mem.head _))
    (by decide)
  exact ⟨h.1 none none ⟨0, 0, 10, 10, 1⟩, h.2.1, h.2.2⟩

end SigEngine
